import Mathlib

/-!
Verification of `src/scripts/clear_cache.py`, a utility that lists the
GitHub Actions cache entries of a fixed repository and deletes every entry
whose `ref` field equals `refs/pull/<id>/merge` for the pull-request id
given on the command line.

The script is embedded shallowly: the JSON values the script manipulates
become an inductive `Json`; the HTTP layer is abstracted into a `World`
record that fixes the outcome of the one list request and of each
successive delete attempt; `main` returns the trace of requests and console
lines together with the unhandled exception, if any, that terminated the
process.
-/

namespace ClearCache

/-- A decoded JSON value, i.e. the kind of Python value `json.load` can
return (floats do not occur in the fields this script reads, so numbers are
modelled as integers).  An `obj` is a decoded Python dict; `json.load`
never produces duplicate keys, so association-list lookup coincides with
dict lookup. -/
inductive Json where
  | null
  | bool (b : Bool)
  | num (n : Int)
  | str (s : String)
  | arr (elems : List Json)
  | obj (fields : List (String × Json))

/-- The Python exceptions that can terminate or be caught by the script. -/
inductive Fatal where
  | keyError
  | indexError
  | typeError
  | httpError (code : Nat)
  | urlError
  | jsonDecodeError
deriving DecidableEq

/-- `j[k]` for a string key `k`, as Python evaluates it: dict lookup
(`KeyError` when absent), `TypeError` on any non-dict value. -/
def Json.index (j : Json) (k : String) : Except Fatal Json :=
  match j with
  | .obj fields =>
    match fields.lookup k with
    | some v => .ok v
    | none => .error .keyError
  | _ => .error .typeError

/-- Python `v == s` where `s` is a `str`: true exactly when `v` is a `str`
with the same contents; values of any other type compare unequal. -/
def Json.eqStr : Json → String → Bool
  | .str s, t => s = t
  | _, _ => false

/-- Python `for x in v`: a list yields its elements, a dict its keys (in
insertion order), a string its one-character substrings; any other value
raises `TypeError`. -/
def Json.iter : Json → Except Fatal (List Json)
  | .arr xs => .ok xs
  | .obj fields => .ok (fields.map fun p => Json.str p.1)
  | .str s => .ok (s.data.map fun c => Json.str ⟨[c]⟩)
  | _ => .error .typeError

mutual

/-- Python `str(v)` for a decoded JSON value: a `str` is returned verbatim,
every other value is rendered by its `repr`.  This is how
`"...{}".format(v)` stringifies its argument. -/
def Json.pyStr : Json → String
  | .str s => s
  | j => Json.pyRepr j

/-- Python `repr(v)` for a decoded JSON value.  Character escaping inside
string reprs is not modelled (the script only ever stringifies the opaque
`id` field, an integer in every real response). -/
def Json.pyRepr : Json → String
  | .null => "None"
  | .bool true => "True"
  | .bool false => "False"
  | .num n => toString n
  | .str s => "'" ++ s ++ "'"
  | .arr xs => "[" ++ Json.pyReprList xs ++ "]"
  | .obj fields => "\x7b" ++ Json.pyReprFields fields ++ "\x7d"

/-- Comma-separated reprs of a Python list's elements. -/
def Json.pyReprList : List Json → String
  | [] => ""
  | [x] => Json.pyRepr x
  | x :: xs => Json.pyRepr x ++ ", " ++ Json.pyReprList xs

/-- Comma-separated `'key': value` reprs of a Python dict's items. -/
def Json.pyReprFields : List (String × Json) → String
  | [] => ""
  | [(k, v)] => "'" ++ k ++ "': " ++ Json.pyRepr v
  | (k, v) :: fs => "'" ++ k ++ "': " ++ Json.pyRepr v ++ ", " ++ Json.pyReprFields fs

end

/-- Core of Python `template.format(*args)` restricted to the plain `"{}"`
placeholders this script uses: each `"{}"` is replaced, left to right, by
the next argument.  (The script never supplies too few arguments, so the
exhausted-arguments branch is never reached.) -/
def pyFormatCore : List Char → List String → List Char
  | '\x7b' :: '\x7d' :: rest, a :: args => a.data ++ pyFormatCore rest args
  | c :: rest, args => c :: pyFormatCore rest args
  | [], _ => []

/-- Python `template.format(*args)` for the `"{}"` templates of the script. -/
def pyFormat (template : String) (args : List String) : String :=
  ⟨pyFormatCore template.data args⟩

/-- An HTTP request as `urllib.request.Request` captures it: a method, a
URL, and the headers added with `add_header`, in order. -/
structure Request where
  method : String
  url : String
  headers : List (String × String)
deriving DecidableEq

/-- `URL = "https://api.github.com/repos/ClementTsang/bottom/actions/caches"` -/
def URL : String := "https://api.github.com/repos/ClementTsang/bottom/actions/caches"

/-- `cache_list_request(key)`: a GET to `URL` with the `Accept` and
`Authorization: Bearer <key>` headers. -/
def cache_list_request (key : String) : Request :=
  { method := "GET"
    url := URL
    headers := [("Accept", "application/vnd.github+json"),
                ("Authorization", pyFormat "Bearer \x7b\x7d" [key])] }

/-- `delete_cache_request(key, id)`: a DELETE to `"{}/{}".format(URL, id)`
with the same two headers. -/
def delete_cache_request (key : String) (id : Json) : Request :=
  { method := "DELETE"
    url := pyFormat "\x7b\x7d/\x7b\x7d" [URL, id.pyStr]
    headers := [("Accept", "application/vnd.github+json"),
                ("Authorization", pyFormat "Bearer \x7b\x7d" [key])] }

/-- An observable action of one run: an attempted HTTP request (`urlopen`
call) or a printed console line. -/
inductive Event where
  | request (r : Request)
  | output (line : String)
deriving DecidableEq

/-- Outcome of one `urlopen` call on a delete request: it returns normally,
raises `HTTPError` with a status code, or raises a plain `URLError`. -/
inductive DelOutcome where
  | success
  | httpError (code : Nat)
  | urlError
deriving DecidableEq

/-- Outcome of the listing stage: `urlopen` on the list request raises
`HTTPError` or `URLError`, or it returns a body that `json.load` either
rejects (`badJson`) or decodes to a JSON value. -/
inductive ListOutcome where
  | httpError (code : Nat)
  | urlError
  | badJson
  | ok (body : Json)

/-- The environment a run happens in: the process environment, `sys.argv`,
and the behaviour of the remote API — the outcome of the single list
request and the outcome of the `k`-th delete attempt, for each `k`. -/
structure World where
  env : List (String × String)
  argv : List String
  listOutcome : ListOutcome
  deletes : Nat → DelOutcome

/-- What a run produces: the trace of events in order, and the unhandled
exception that terminated the process, if any. -/
structure Result where
  events : List Event
  fatal : Option Fatal
deriving DecidableEq

/-- Prefix a trace onto a later result. -/
def Result.prepend (evs : List Event) (r : Result) : Result :=
  { events := evs ++ r.events, fatal := r.fatal }

/-- `ref = "refs/pull/{}/merge".format(pr_id)` -/
def derivedRef (pr_id : String) : String :=
  pyFormat "refs/pull/\x7b\x7d/merge" [pr_id]

/-- The `for cache in caches:` loop of `main`: each entry's `ref` field is
compared against `ref`; on a match the `id` field is read, the
deletion-attempt line is printed, the delete request is attempted (`del k`
gives the outcome of the `k`-th attempt), and the caught-error or success
line is printed; field-access failures are unhandled and stop the run. -/
def processCaches (key ref : String) (del : Nat → DelOutcome) :
    List Json → Nat → Result
  | [], _ => ⟨[], none⟩
  | cache :: rest, k =>
    match Json.index cache "ref" with
    | .error f => ⟨[], some f⟩
    | .ok v =>
      if v.eqStr ref then
        match Json.index cache "id" with
        | .error f => ⟨[], some f⟩
        | .ok id =>
          let pre : List Event :=
            [.output (pyFormat "Deleting ID \x7b\x7d..." [id.pyStr]),
             .request (delete_cache_request key id)]
          match del k with
          | .httpError code =>
            Result.prepend
              (pre ++ [.output (pyFormat "HTTPError with delete, error code \x7b\x7d."
                [toString code])])
              (processCaches key ref del rest (k + 1))
          | .urlError =>
            Result.prepend (pre ++ [.output "URLError with delete."])
              (processCaches key ref del rest (k + 1))
          | .success =>
            Result.prepend
              (pre ++ [.output (pyFormat "Successfully deleted cache ID \x7b\x7d!"
                [id.pyStr])])
              (processCaches key ref del rest (k + 1))
      else processCaches key ref del rest k

/-- `main()`: read `GITHUB_TOKEN` (KeyError when absent) and `sys.argv[1]`
(IndexError when absent), derive `ref`, attempt the list request, decode
the body, extract `actions_caches`, and run the deletion loop.  Every
failure outside the loop's `try` block is unhandled. -/
def main (w : World) : Result :=
  match w.env.lookup "GITHUB_TOKEN" with
  | none => ⟨[], some .keyError⟩
  | some key =>
    match w.argv[1]? with
    | none => ⟨[], some .indexError⟩
    | some pr_id =>
      let ref := derivedRef pr_id
      let listEv : Event := .request (cache_list_request key)
      match w.listOutcome with
      | .httpError code => ⟨[listEv], some (.httpError code)⟩
      | .urlError => ⟨[listEv], some .urlError⟩
      | .badJson => ⟨[listEv], some .jsonDecodeError⟩
      | .ok body =>
        match Json.index body "actions_caches" with
        | .error f => ⟨[listEv], some f⟩
        | .ok cachesVal =>
          match Json.iter cachesVal with
          | .error f => ⟨[listEv], some f⟩
          | .ok caches =>
            Result.prepend [listEv] (processCaches key ref w.deletes caches 0)

/-- The process exit status: Python exits 0 when `main` returns and 1 when
an exception propagates out of it (the script sets no explicit exit code). -/
def exitCode (w : World) : Nat :=
  match (main w).fatal with
  | none => 0
  | some _ => 1

/-- The delete requests attempted during a trace, in order. -/
def deleteRequests (evs : List Event) : List Request :=
  evs.filterMap fun e =>
    match e with
    | .request r => if r.method = "DELETE" then some r else none
    | .output _ => none

/-- All requests attempted during a trace, in order. -/
def requestsOf (evs : List Event) : List Request :=
  evs.filterMap fun e =>
    match e with
    | .request r => some r
    | .output _ => none

/-- An entry the loop can process without an unhandled exception: its
`ref` field exists, and when that field matches `ref` its `id` field exists
as well. -/
def entryOk (ref : String) (c : Json) : Bool :=
  match Json.index c "ref" with
  | .error _ => false
  | .ok v =>
    if v.eqStr ref then
      match Json.index c "id" with
      | .ok _ => true
      | .error _ => false
    else true

/-- Whether an entry's `ref` field exists and equals `ref`. -/
def matchesRef (ref : String) (c : Json) : Bool :=
  match Json.index c "ref" with
  | .ok v => v.eqStr ref
  | .error _ => false

/-- The `id` fields of the entries whose `ref` field equals `ref`, in the
provider's order. -/
def matchingIds (ref : String) (caches : List Json) : List Json :=
  caches.filterMap fun c =>
    match Json.index c "ref", Json.index c "id" with
    | .ok v, .ok id => if v.eqStr ref then some id else none
    | _, _ => none

/-- The three console/request events one matching entry's delete attempt
produces, as a function of the attempt's outcome. -/
def delTrace (key : String) (id : Json) (o : DelOutcome) : List Event :=
  [.output (pyFormat "Deleting ID \x7b\x7d..." [id.pyStr]),
   .request (delete_cache_request key id)] ++
  match o with
  | .success => [.output (pyFormat "Successfully deleted cache ID \x7b\x7d!" [id.pyStr])]
  | .httpError code =>
    [.output (pyFormat "HTTPError with delete, error code \x7b\x7d." [toString code])]
  | .urlError => [.output "URLError with delete."]

theorem eqStr_iff (v : Json) (t : String) : v.eqStr t = true ↔ v = .str t := by
  cases v <;> simp [Json.eqStr]

theorem deleteRequests_append (a b : List Event) :
    deleteRequests (a ++ b) = deleteRequests a ++ deleteRequests b := by
  simp [deleteRequests]

theorem requestsOf_append (a b : List Event) :
    requestsOf (a ++ b) = requestsOf a ++ requestsOf b := by
  simp [requestsOf]

theorem processCaches_cons_nomatch (key ref : String) (del : Nat → DelOutcome)
    (c : Json) (rest : List Json) (k : Nat) (v : Json)
    (href : Json.index c "ref" = .ok v) (hm : Json.eqStr v ref = false) :
    processCaches key ref del (c :: rest) k = processCaches key ref del rest k := by
  simp [processCaches, href, hm]

theorem processCaches_cons_match (key ref : String) (del : Nat → DelOutcome)
    (c : Json) (rest : List Json) (k : Nat) (v id : Json)
    (href : Json.index c "ref" = .ok v) (hm : Json.eqStr v ref = true)
    (hid : Json.index c "id" = .ok id) :
    processCaches key ref del (c :: rest) k =
      Result.prepend (delTrace key id (del k))
        (processCaches key ref del rest (k + 1)) := by
  cases hdel : del k <;> simp [processCaches, href, hm, hid, hdel, delTrace]

theorem deleteRequests_delTrace (key : String) (id : Json) (o : DelOutcome) :
    deleteRequests (delTrace key id o) = [delete_cache_request key id] := by
  cases o <;> simp [delTrace, deleteRequests, delete_cache_request]

theorem matchingIds_cons_nomatch (ref : String) (c : Json) (rest : List Json)
    (v : Json) (href : Json.index c "ref" = .ok v) (hm : Json.eqStr v ref = false) :
    matchingIds ref (c :: rest) = matchingIds ref rest := by
  cases hid : Json.index c "id" <;>
    simp [matchingIds, List.filterMap_cons, href, hid, hm]

theorem matchingIds_cons_match (ref : String) (c : Json) (rest : List Json)
    (v id : Json) (href : Json.index c "ref" = .ok v)
    (hm : Json.eqStr v ref = true) (hid : Json.index c "id" = .ok id) :
    matchingIds ref (c :: rest) = id :: matchingIds ref rest := by
  simp [matchingIds, List.filterMap_cons, href, hid, hm]

/-- Processing a list of well-formed entries never raises, and the delete
requests it attempts are exactly the matching entries' ids, in order,
whatever the outcomes of the individual delete attempts are. -/
theorem processCaches_ok (key ref : String) (del : Nat → DelOutcome)
    (caches : List Json) (k : Nat)
    (h : ∀ c ∈ caches, entryOk ref c = true) :
    (processCaches key ref del caches k).fatal = none ∧
    deleteRequests (processCaches key ref del caches k).events =
      (matchingIds ref caches).map (delete_cache_request key) := by
  induction caches generalizing k with
  | nil => simp [processCaches, matchingIds, deleteRequests]
  | cons c rest ih =>
    have hc := h c (List.mem_cons_self c rest)
    have hrest : ∀ e ∈ rest, entryOk ref e = true :=
      fun e he => h e (List.mem_cons_of_mem _ he)
    cases href : Json.index c "ref" with
    | error f => simp [entryOk, href] at hc
    | ok v =>
      cases hm : Json.eqStr v ref with
      | false =>
        rw [processCaches_cons_nomatch key ref del c rest k v href hm,
          matchingIds_cons_nomatch ref c rest v href hm]
        exact ih hrest (k := k)
      | true =>
        cases hid : Json.index c "id" with
        | error f => simp [entryOk, href, hm, hid] at hc
        | ok id =>
          obtain ⟨hf, hd⟩ := ih hrest (k := k + 1)
          rw [processCaches_cons_match key ref del c rest k v id href hm hid,
            matchingIds_cons_match ref c rest v id href hm hid]
          refine ⟨hf, ?_⟩
          simp [Result.prepend, deleteRequests_append, deleteRequests_delTrace, hd]

theorem derivedRef_eq (pr_id : String) :
    derivedRef pr_id = "refs/pull/" ++ pr_id ++ "/merge" := by
  cases pr_id with
  | mk d => rfl

theorem pyFormat_deleting (s : String) :
    pyFormat "Deleting ID \x7b\x7d..." [s] = "Deleting ID " ++ s ++ "..." := by
  cases s with
  | mk d => rfl

theorem pyFormat_httpError (s : String) :
    pyFormat "HTTPError with delete, error code \x7b\x7d." [s] =
      "HTTPError with delete, error code " ++ s ++ "." := by
  cases s with
  | mk d => rfl

theorem pyFormat_success (s : String) :
    pyFormat "Successfully deleted cache ID \x7b\x7d!" [s] =
      "Successfully deleted cache ID " ++ s ++ "!" := by
  cases s with
  | mk d => rfl

theorem pyFormat_bearer (k : String) :
    pyFormat "Bearer \x7b\x7d" [k] = "Bearer " ++ k := by
  cases k with
  | mk d =>
    show String.mk ('B' :: 'e' :: 'a' :: 'r' :: 'e' :: 'r' :: ' ' :: (d ++ [])) =
      String.mk ('B' :: 'e' :: 'a' :: 'r' :: 'e' :: 'r' :: ' ' :: d)
    rw [List.append_nil]

theorem pyFormat_url (s : String) :
    pyFormat "\x7b\x7d/\x7b\x7d" [URL, s] = URL ++ "/" ++ s := by
  cases s with
  | mk d =>
    show String.mk (URL.data ++ ('/' :: (d ++ []))) =
      String.mk ((URL.data ++ ('/' :: [])) ++ d)
    exact congrArg String.mk (by simp)

/-- The unhandled exception of the deletion loop does not depend on the
outcomes of the delete attempts. -/
theorem processCaches_fatal_indep (key ref : String) (d1 d2 : Nat → DelOutcome)
    (caches : List Json) :
    ∀ k k' : Nat,
      (processCaches key ref d1 caches k).fatal =
        (processCaches key ref d2 caches k').fatal := by
  induction caches with
  | nil => intro k k'; simp [processCaches]
  | cons c rest ih =>
    intro k k'
    cases href : Json.index c "ref" with
    | error f => simp [processCaches, href]
    | ok v =>
      cases hm : Json.eqStr v ref with
      | false =>
        rw [processCaches_cons_nomatch key ref d1 c rest k v href hm,
          processCaches_cons_nomatch key ref d2 c rest k' v href hm]
        exact ih k k'
      | true =>
        cases hid : Json.index c "id" with
        | error f => simp [processCaches, href, hm, hid]
        | ok id =>
          rw [processCaches_cons_match key ref d1 c rest k v id href hm hid,
            processCaches_cons_match key ref d2 c rest k' v id href hm hid]
          simpa [Result.prepend] using ih (k + 1) (k' + 1)

/-- The unhandled exception of a whole run does not depend on the outcomes
of the delete attempts. -/
theorem main_fatal_indep (env : List (String × String)) (argv : List String)
    (lo : ListOutcome) (d1 d2 : Nat → DelOutcome) :
    (main ⟨env, argv, lo, d1⟩).fatal = (main ⟨env, argv, lo, d2⟩).fatal := by
  cases henv : env.lookup "GITHUB_TOKEN" with
  | none => simp [main, henv]
  | some key =>
    cases ha : argv[1]? with
    | none => simp [main, henv, ha]
    | some pr =>
      cases lo with
      | httpError code => simp [main, henv, ha]
      | urlError => simp [main, henv, ha]
      | badJson => simp [main, henv, ha]
      | ok body =>
        cases hb : Json.index body "actions_caches" with
        | error f => simp [main, henv, ha, hb]
        | ok cv =>
          cases hi : Json.iter cv with
          | error f => simp [main, henv, ha, hb, hi]
          | ok caches =>
            simp only [main, henv, ha, hb, hi, Result.prepend]
            exact processCaches_fatal_indep key (derivedRef pr) d1 d2 caches 0 0

/-- The list request is a GET, so it contributes no delete request. -/
theorem deleteRequests_cons_listEv (key : String) (evs : List Event) :
    deleteRequests (Event.request (cache_list_request key) :: evs) =
      deleteRequests evs := by
  simp [deleteRequests, cache_list_request]

/-- Every request the deletion loop attempts is a `delete_cache_request`
built from the credential. -/
theorem processCaches_requests (key ref : String) (del : Nat → DelOutcome)
    (caches : List Json) :
    ∀ (k : Nat) (r : Request),
      Event.request r ∈ (processCaches key ref del caches k).events →
      ∃ id, r = delete_cache_request key id := by
  induction caches with
  | nil => intro k r h; simp [processCaches] at h
  | cons c rest ih =>
    intro k r h
    cases href : Json.index c "ref" with
    | error f => rw [processCaches] at h; simp [href] at h
    | ok v =>
      cases hm : Json.eqStr v ref with
      | false =>
        rw [processCaches_cons_nomatch key ref del c rest k v href hm] at h
        exact ih k r h
      | true =>
        cases hid : Json.index c "id" with
        | error f => rw [processCaches] at h; simp [href, hm, hid] at h
        | ok id =>
          rw [processCaches_cons_match key ref del c rest k v id href hm hid] at h
          simp only [Result.prepend, List.mem_append] at h
          rcases h with h | h
          · cases hdel : del k <;> rw [hdel] at h <;> simp [delTrace] at h <;>
              exact ⟨id, h⟩
          · exact ih (k + 1) r h

/-- With well-formed entries, the number of matching ids equals the number
of entries whose `ref` field matches. -/
theorem matchingIds_length (ref : String) (caches : List Json)
    (h : ∀ c ∈ caches, entryOk ref c = true) :
    (matchingIds ref caches).length =
      (caches.filter (matchesRef ref)).length := by
  induction caches with
  | nil => simp [matchingIds]
  | cons c rest ih =>
    have hc := h c (List.mem_cons_self c rest)
    have hrest : ∀ e ∈ rest, entryOk ref e = true :=
      fun e he => h e (List.mem_cons_of_mem _ he)
    cases href : Json.index c "ref" with
    | error f => simp [entryOk, href] at hc
    | ok v =>
      cases hm : Json.eqStr v ref with
      | false =>
        rw [matchingIds_cons_nomatch ref c rest v href hm]
        simp [List.filter_cons, matchesRef, href, hm, ih hrest]
      | true =>
        cases hid : Json.index c "id" with
        | error f => simp [entryOk, href, hm, hid] at hc
        | ok id =>
          rw [matchingIds_cons_match ref c rest v id href hm hid]
          simp [List.filter_cons, matchesRef, href, hm, ih hrest]

/-- When entry `c` is reached and its `ref` field is missing — or it
matches but its `id` field is missing — the loop stops with that exception,
having attempted exactly the deletes of the well-formed prefix before `c`. -/
theorem processCaches_fail (key ref : String) (del : Nat → DelOutcome)
    (pre : List Json) (c : Json) (rest : List Json) (f : Fatal)
    (hpre : ∀ e ∈ pre, entryOk ref e = true)
    (hc : Json.index c "ref" = .error f ∨
      (Json.index c "ref" = .ok (.str ref) ∧ Json.index c "id" = .error f)) :
    ∀ k : Nat,
      (processCaches key ref del (pre ++ c :: rest) k).fatal = some f ∧
      deleteRequests (processCaches key ref del (pre ++ c :: rest) k).events =
        (matchingIds ref pre).map (delete_cache_request key) := by
  induction pre with
  | nil =>
    intro k
    rcases hc with h | ⟨h1, h2⟩
    · simp [processCaches, h, matchingIds, deleteRequests]
    · simp [processCaches, h1, h2, Json.eqStr, matchingIds, deleteRequests]
  | cons e pre' ih =>
    intro k
    have he := hpre e (List.mem_cons_self e pre')
    have hpre' : ∀ x ∈ pre', entryOk ref x = true :=
      fun x hx => hpre x (List.mem_cons_of_mem _ hx)
    cases href : Json.index e "ref" with
    | error f' => simp [entryOk, href] at he
    | ok v =>
      cases hm : Json.eqStr v ref with
      | false =>
        rw [List.cons_append,
          processCaches_cons_nomatch key ref del e (pre' ++ c :: rest) k v href hm,
          matchingIds_cons_nomatch ref e pre' v href hm]
        exact ih hpre' k
      | true =>
        cases hid : Json.index e "id" with
        | error f' => simp [entryOk, href, hm, hid] at he
        | ok id =>
          rw [List.cons_append,
            processCaches_cons_match key ref del e (pre' ++ c :: rest) k v id href hm hid,
            matchingIds_cons_match ref e pre' v id href hm hid]
          obtain ⟨hf, hd⟩ := ih hpre' (k + 1)
          refine ⟨by simpa [Result.prepend] using hf, ?_⟩
          simp [Result.prepend, deleteRequests_append, deleteRequests_delTrace, hd]

/-- C7: for every pull-request identifier string accepted as the first
argument — any string, nothing is validated — the derived reference string
is exactly the concatenation `refs/pull/` ++ id ++ `/merge`, with no
escaping or transformation applied to the id. -/
theorem C7_derived_ref_is_plain_concatenation (pr_id : String) :
    derivedRef pr_id = "refs/pull/" ++ pr_id ++ "/merge" :=
  derivedRef_eq pr_id

/-- C8: the list request is a GET to the hardcoded repository's
`/actions/caches` endpoint, each delete request is a DELETE to
`/actions/caches/<id>` with the matching entry's identifier field, both
carry exactly the headers `Accept: application/vnd.github+json` and
`Authorization: Bearer <token>` with the credential inserted verbatim, and
every request a run attempts is one of these two. -/
theorem C8_request_shapes (key : String) :
    ((cache_list_request key).method = "GET" ∧
     (cache_list_request key).url = URL ∧
     (cache_list_request key).headers =
       [("Accept", "application/vnd.github+json"),
        ("Authorization", "Bearer " ++ key)]) ∧
    (∀ id : Json,
      (delete_cache_request key id).method = "DELETE" ∧
      (delete_cache_request key id).url = URL ++ "/" ++ id.pyStr ∧
      (delete_cache_request key id).headers =
        [("Accept", "application/vnd.github+json"),
         ("Authorization", "Bearer " ++ key)]) ∧
    (∀ (env : List (String × String)) (argv : List String) (lo : ListOutcome)
        (del : Nat → DelOutcome) (r : Request),
      env.lookup "GITHUB_TOKEN" = some key →
      Event.request r ∈ (main ⟨env, argv, lo, del⟩).events →
      r = cache_list_request key ∨ ∃ id, r = delete_cache_request key id) := by
  refine ⟨⟨rfl, rfl, by simp [cache_list_request, pyFormat_bearer]⟩,
    fun id => ⟨rfl, by simp [delete_cache_request, pyFormat_url],
      by simp [delete_cache_request, cache_list_request, pyFormat_bearer]⟩,
    fun env argv lo del r hk h => ?_⟩
  cases ha : argv[1]? with
  | none => simp [main, hk, ha] at h
  | some pr =>
    cases lo with
    | httpError code => simp [main, hk, ha] at h; exact Or.inl h
    | urlError => simp [main, hk, ha] at h; exact Or.inl h
    | badJson => simp [main, hk, ha] at h; exact Or.inl h
    | ok body =>
      cases hb : Json.index body "actions_caches" with
      | error f => simp [main, hk, ha, hb] at h; exact Or.inl h
      | ok cachesVal =>
        cases hi : Json.iter cachesVal with
        | error f => simp [main, hk, ha, hb, hi] at h; exact Or.inl h
        | ok caches =>
          simp only [main, hk, ha, hb, hi, Result.prepend, List.singleton_append,
            List.mem_cons] at h
          rcases h with h | h
          · exact Or.inl (by injection h)
          · exact Or.inr (processCaches_requests key (derivedRef pr) del caches 0 r h)

/-- C8 witness: at a concrete credential and a concrete run whose listing
succeeds with no entries, the shape facts and the classification of the one
attempted request are obtained from `C8_request_shapes`. -/
theorem C8_request_shapes_witness :
    (cache_list_request "tok").headers =
      [("Accept", "application/vnd.github+json"),
       ("Authorization", "Bearer tok")] ∧
    (cache_list_request "tok" = cache_list_request "tok" ∨
      ∃ id, cache_list_request "tok" = delete_cache_request "tok" id) :=
  ⟨(C8_request_shapes "tok").1.2.2,
   (C8_request_shapes "tok").2.2 [("GITHUB_TOKEN", "tok")] ["clear_cache.py", "42"]
     (.ok (.obj [("actions_caches", .arr [])])) (fun _ => .success)
     (cache_list_request "tok") rfl (by decide)⟩

/-- C9: a credential variable that is set to the empty string is not a
failure: the run proceeds past the input reads and attempts the list
request, whose Authorization header is `Bearer ` followed by the empty
token.  Only complete absence of the variable is fatal. -/
theorem C9_empty_token_accepted (env : List (String × String))
    (argv : List String) (lo : ListOutcome) (del : Nat → DelOutcome)
    (pr : String)
    (hk : env.lookup "GITHUB_TOKEN" = some "")
    (ha : argv[1]? = some pr) :
    (main ⟨env, argv, lo, del⟩).events.head? =
      some (.request (cache_list_request "")) ∧
    (cache_list_request "").headers =
      [("Accept", "application/vnd.github+json"), ("Authorization", "Bearer ")] := by
  refine ⟨?_, rfl⟩
  cases lo with
  | httpError code => simp [main, hk, ha]
  | urlError => simp [main, hk, ha]
  | badJson => simp [main, hk, ha]
  | ok body =>
    cases hb : Json.index body "actions_caches" with
    | error f => simp [main, hk, ha, hb]
    | ok cachesVal =>
      cases hi : Json.iter cachesVal with
      | error f => simp [main, hk, ha, hb, hi]
      | ok caches => simp [main, hk, ha, hb, hi, Result.prepend]

/-- C9 witness: a concrete run with `GITHUB_TOKEN` set to the empty string
issues the list request with the `Bearer ` header. -/
theorem C9_empty_token_accepted_witness :
    (main ⟨[("GITHUB_TOKEN", "")], ["clear_cache.py", "7"], .badJson,
        fun _ => .success⟩).events.head? =
      some (.request (cache_list_request "")) ∧
    (cache_list_request "").headers =
      [("Accept", "application/vnd.github+json"), ("Authorization", "Bearer ")] :=
  C9_empty_token_accepted [("GITHUB_TOKEN", "")] ["clear_cache.py", "7"]
    .badJson (fun _ => .success) "7" rfl rfl

/-- C5 counterexample: with `GITHUB_TOKEN` set to the empty string (and an
identifier argument supplied), the run does not fail and it does attempt a
network request — refuting the part of the claim that requires the
credential to be a non-empty string. -/
theorem C5_counterexample_empty_credential_runs :
    (main ⟨[("GITHUB_TOKEN", "")], ["clear_cache.py", "1"],
        .ok (.obj [("actions_caches", .arr [])]), fun _ => .success⟩).fatal =
      none ∧
    requestsOf (main ⟨[("GITHUB_TOKEN", "")], ["clear_cache.py", "1"],
        .ok (.obj [("actions_caches", .arr [])]), fun _ => .success⟩).events ≠
      [] := by
  constructor
  · rfl
  · intro h
    exact absurd (congrArg List.length h) (by decide)

/-- C5 (amended): if the credential environment variable is absent, or the
first positional argument is absent, the process fails immediately with the
corresponding unhandled exception and no network request of any kind is
attempted; the emptiness of the credential is never checked. -/
theorem C5_missing_inputs_fatal (env : List (String × String))
    (argv : List String) (lo : ListOutcome) (del : Nat → DelOutcome) :
    (env.lookup "GITHUB_TOKEN" = none →
      main ⟨env, argv, lo, del⟩ = ⟨[], some .keyError⟩) ∧
    (∀ key, env.lookup "GITHUB_TOKEN" = some key → argv[1]? = none →
      main ⟨env, argv, lo, del⟩ = ⟨[], some .indexError⟩) := by
  constructor
  · intro h; simp [main, h]
  · intro key hk ha; simp [main, hk, ha]

/-- C5 witness: a run with an empty environment aborts with `KeyError`, and
a run with a credential but no argument aborts with `IndexError`, in both
cases with an empty trace. -/
theorem C5_missing_inputs_fatal_witness :
    main ⟨[], ["clear_cache.py"], .badJson, fun _ => .success⟩ =
      ⟨[], some .keyError⟩ ∧
    main ⟨[("GITHUB_TOKEN", "t")], ["clear_cache.py"], .badJson,
        fun _ => .success⟩ =
      ⟨[], some .indexError⟩ :=
  ⟨(C5_missing_inputs_fatal [] ["clear_cache.py"] .badJson
      (fun _ => .success)).1 rfl,
   (C5_missing_inputs_fatal [("GITHUB_TOKEN", "t")] ["clear_cache.py"] .badJson
      (fun _ => .success)).2 "t" rfl rfl⟩

/-- C3: when the list request raises, the run consists of exactly that one
attempted request — so zero delete requests, no retry — and the exception
(HTTPError with its code, or URLError) is unhandled and fatal. -/
theorem C3_list_failure_is_fatal (env : List (String × String))
    (argv : List String) (del : Nat → DelOutcome) (key pr : String)
    (hk : env.lookup "GITHUB_TOKEN" = some key)
    (ha : argv[1]? = some pr) :
    (∀ code,
      main ⟨env, argv, .httpError code, del⟩ =
        ⟨[.request (cache_list_request key)], some (.httpError code)⟩ ∧
      deleteRequests (main ⟨env, argv, .httpError code, del⟩).events = []) ∧
    (main ⟨env, argv, .urlError, del⟩ =
        ⟨[.request (cache_list_request key)], some .urlError⟩ ∧
      deleteRequests (main ⟨env, argv, .urlError, del⟩).events = []) := by
  refine ⟨fun code => ⟨?_, ?_⟩, ?_, ?_⟩ <;>
    simp [main, hk, ha, deleteRequests, cache_list_request]

/-- C3 witness: a concrete run whose list request returns HTTP 500 attempts
exactly that one request and dies with the HTTPError. -/
theorem C3_list_failure_is_fatal_witness :
    main ⟨[("GITHUB_TOKEN", "t")], ["clear_cache.py", "7"], .httpError 500,
        fun _ => .success⟩ =
      ⟨[.request (cache_list_request "t")], some (.httpError 500)⟩ ∧
    deleteRequests (main ⟨[("GITHUB_TOKEN", "t")], ["clear_cache.py", "7"],
        .httpError 500, fun _ => .success⟩).events = [] :=
  (C3_list_failure_is_fatal [("GITHUB_TOKEN", "t")] ["clear_cache.py", "7"]
    (fun _ => .success) "t" "7" rfl rfl).1 500

/-- C1: for every successfully listed and well-formed response and every
supplied identifier `pr`, the delete requests attempted are exactly, and in
order, those for the `id` fields of the entries whose `ref` field equals
`refs/pull/` ++ pr ++ `/merge` — so an entry is deleted iff its reference
matches exactly (case-sensitively), and entries whose reference differs in
any way are never touched. -/
theorem C1_delete_iff_exact_ref_match (env : List (String × String))
    (argv : List String) (del : Nat → DelOutcome) (key pr : String)
    (body cachesVal : Json) (caches : List Json)
    (hk : env.lookup "GITHUB_TOKEN" = some key)
    (ha : argv[1]? = some pr)
    (hb : Json.index body "actions_caches" = .ok cachesVal)
    (hc : Json.iter cachesVal = .ok caches)
    (hok : ∀ c ∈ caches, entryOk ("refs/pull/" ++ pr ++ "/merge") c = true) :
    deleteRequests (main ⟨env, argv, .ok body, del⟩).events =
      (matchingIds ("refs/pull/" ++ pr ++ "/merge") caches).map
        (delete_cache_request key) := by
  simp only [main, hk, ha, hb, hc, Result.prepend, List.singleton_append]
  rw [deleteRequests_cons_listEv, derivedRef_eq]
  exact (processCaches_ok key _ del caches 0 hok).2

/-- C1 witness: with identifier `42`, an entry with reference
`refs/pull/42/merge` is deleted and an entry with reference
`refs/pull/42/head` is not. -/
theorem C1_delete_iff_exact_ref_match_witness :
    deleteRequests (main ⟨[("GITHUB_TOKEN", "t")], ["clear_cache.py", "42"],
        .ok (.obj [("actions_caches", .arr
          [.obj [("ref", .str "refs/pull/42/merge"), ("id", .num 1)],
           .obj [("ref", .str "refs/pull/42/head"), ("id", .num 2)]])]),
        fun _ => .success⟩).events =
      (matchingIds ("refs/pull/" ++ "42" ++ "/merge")
          [.obj [("ref", .str "refs/pull/42/merge"), ("id", .num 1)],
           .obj [("ref", .str "refs/pull/42/head"), ("id", .num 2)]]).map
        (delete_cache_request "t") :=
  C1_delete_iff_exact_ref_match [("GITHUB_TOKEN", "t")] ["clear_cache.py", "42"]
    (fun _ => .success) "t" "42"
    (.obj [("actions_caches", .arr
      [.obj [("ref", .str "refs/pull/42/merge"), ("id", .num 1)],
       .obj [("ref", .str "refs/pull/42/head"), ("id", .num 2)]])])
    (.arr [.obj [("ref", .str "refs/pull/42/merge"), ("id", .num 1)],
           .obj [("ref", .str "refs/pull/42/head"), ("id", .num 2)]])
    [.obj [("ref", .str "refs/pull/42/merge"), ("id", .num 1)],
     .obj [("ref", .str "refs/pull/42/head"), ("id", .num 2)]]
    rfl rfl rfl rfl (by decide)

/-- C2: with N entries matching the derived reference, exactly N delete
requests are attempted, in the provider's original order; the attempted
requests do not depend on the outcomes of the individual deletes (a caught
failure never prevents the remaining attempts); and the run completes
without an unhandled exception — in particular with zero matches, zero
delete requests are issued and the run still completes cleanly. -/
theorem C2_n_matches_n_attempts (env : List (String × String))
    (argv : List String) (del : Nat → DelOutcome) (key pr : String)
    (body cachesVal : Json) (caches : List Json)
    (hk : env.lookup "GITHUB_TOKEN" = some key)
    (ha : argv[1]? = some pr)
    (hb : Json.index body "actions_caches" = .ok cachesVal)
    (hc : Json.iter cachesVal = .ok caches)
    (hok : ∀ c ∈ caches, entryOk (derivedRef pr) c = true) :
    (deleteRequests (main ⟨env, argv, .ok body, del⟩).events).length =
      (caches.filter (matchesRef (derivedRef pr))).length ∧
    deleteRequests (main ⟨env, argv, .ok body, del⟩).events =
      (matchingIds (derivedRef pr) caches).map (delete_cache_request key) ∧
    (∀ del2 : Nat → DelOutcome,
      deleteRequests (main ⟨env, argv, .ok body, del2⟩).events =
        deleteRequests (main ⟨env, argv, .ok body, del⟩).events) ∧
    (main ⟨env, argv, .ok body, del⟩).fatal = none ∧
    (caches.filter (matchesRef (derivedRef pr)) = [] →
      deleteRequests (main ⟨env, argv, .ok body, del⟩).events = []) := by
  have hmain : ∀ d : Nat → DelOutcome,
      deleteRequests (main ⟨env, argv, .ok body, d⟩).events =
        (matchingIds (derivedRef pr) caches).map (delete_cache_request key) := by
    intro d
    simp only [main, hk, ha, hb, hc, Result.prepend, List.singleton_append]
    rw [deleteRequests_cons_listEv]
    exact (processCaches_ok key _ d caches 0 hok).2
  refine ⟨?_, hmain del, fun del2 => (hmain del2).trans (hmain del).symm, ?_, ?_⟩
  · rw [hmain del, List.length_map]
    exact matchingIds_length _ caches hok
  · simp only [main, hk, ha, hb, hc, Result.prepend]
    exact (processCaches_ok key _ del caches 0 hok).1
  · intro hnil
    rw [hmain del]
    have hlen := matchingIds_length _ caches hok
    rw [hnil] at hlen
    simp only [List.length_nil, List.length_eq_zero] at hlen
    simp [hlen]

/-- C2 witness: a response with one matching entry out of two, whose delete
fails with HTTP 404, still attempts exactly one delete, in order, and the
run finishes without an unhandled exception. -/
theorem C2_n_matches_n_attempts_witness :
    (deleteRequests (main ⟨[("GITHUB_TOKEN", "t")], ["clear_cache.py", "123"],
        .ok (.obj [("actions_caches", .arr
          [.obj [("ref", .str "refs/pull/123/merge"), ("id", .num 1)],
           .obj [("ref", .str "refs/pull/999/merge"), ("id", .num 2)]])]),
        fun _ => .httpError 404⟩).events).length =
      ([Json.obj [("ref", .str "refs/pull/123/merge"), ("id", .num 1)],
        Json.obj [("ref", .str "refs/pull/999/merge"), ("id", .num 2)]].filter
          (matchesRef (derivedRef "123"))).length ∧
    (main ⟨[("GITHUB_TOKEN", "t")], ["clear_cache.py", "123"],
        .ok (.obj [("actions_caches", .arr
          [.obj [("ref", .str "refs/pull/123/merge"), ("id", .num 1)],
           .obj [("ref", .str "refs/pull/999/merge"), ("id", .num 2)]])]),
        fun _ => .httpError 404⟩).fatal = none := by
  have h := C2_n_matches_n_attempts [("GITHUB_TOKEN", "t")]
    ["clear_cache.py", "123"] (fun _ => .httpError 404) "t" "123"
    (.obj [("actions_caches", .arr
      [.obj [("ref", .str "refs/pull/123/merge"), ("id", .num 1)],
       .obj [("ref", .str "refs/pull/999/merge"), ("id", .num 2)]])])
    (.arr [.obj [("ref", .str "refs/pull/123/merge"), ("id", .num 1)],
           .obj [("ref", .str "refs/pull/999/merge"), ("id", .num 2)]])
    [.obj [("ref", .str "refs/pull/123/merge"), ("id", .num 1)],
     .obj [("ref", .str "refs/pull/999/merge"), ("id", .num 2)]]
    rfl rfl rfl rfl (by decide)
  exact ⟨h.1, h.2.2.2.1⟩

/-- C6: the exit status does not depend on the delete outcomes; it is 0
exactly when no unhandled exception occurred (the program sets no explicit
exit code, so the status only reflects whether `main` raised); and whenever
the input reads and the listing stage succeed on a well-formed body the
status is 0, however many delete failures were caught and logged. -/
theorem C6_exit_status (env : List (String × String)) (argv : List String)
    (lo : ListOutcome) (del : Nat → DelOutcome) :
    (∀ d2 : Nat → DelOutcome,
      exitCode ⟨env, argv, lo, d2⟩ = exitCode ⟨env, argv, lo, del⟩) ∧
    (exitCode ⟨env, argv, lo, del⟩ = 0 ↔
      (main ⟨env, argv, lo, del⟩).fatal = none) ∧
    (∀ (key pr : String) (body cachesVal : Json) (caches : List Json),
      env.lookup "GITHUB_TOKEN" = some key →
      argv[1]? = some pr →
      lo = .ok body →
      Json.index body "actions_caches" = .ok cachesVal →
      Json.iter cachesVal = .ok caches →
      (∀ c ∈ caches, entryOk (derivedRef pr) c = true) →
      exitCode ⟨env, argv, lo, del⟩ = 0) := by
  refine ⟨?_, ?_, ?_⟩
  · intro d2
    simp only [exitCode, main_fatal_indep env argv lo d2 del]
  · cases hf : (main ⟨env, argv, lo, del⟩).fatal <;> simp [exitCode, hf]
  · intro key pr body cachesVal caches hk ha hlo hb hi hok
    subst hlo
    simp only [exitCode, main, hk, ha, hb, hi, Result.prepend,
      (processCaches_ok key (derivedRef pr) del caches 0 hok).1]

/-- C6 witness: a concrete run whose only matching entry's delete fails
with a URLError still exits 0. -/
theorem C6_exit_status_witness :
    exitCode ⟨[("GITHUB_TOKEN", "t")], ["clear_cache.py", "3"],
      .ok (.obj [("actions_caches", .arr
        [.obj [("ref", .str "refs/pull/3/merge"), ("id", .num 9)]])]),
      fun _ => .urlError⟩ = 0 :=
  (C6_exit_status [("GITHUB_TOKEN", "t")] ["clear_cache.py", "3"]
    (.ok (.obj [("actions_caches", .arr
      [.obj [("ref", .str "refs/pull/3/merge"), ("id", .num 9)]])]))
    (fun _ => .urlError)).2.2 "t" "3"
    (.obj [("actions_caches", .arr
      [.obj [("ref", .str "refs/pull/3/merge"), ("id", .num 9)]])])
    (.arr [.obj [("ref", .str "refs/pull/3/merge"), ("id", .num 9)]])
    [.obj [("ref", .str "refs/pull/3/merge"), ("id", .num 9)]]
    rfl rfl rfl rfl rfl (by decide)

/-- C4: when a matching entry's delete attempt raises, the error is caught
and the run continues with the remaining entries after printing, for an
HTTPError, a line containing the numeric status code, and for a URLError a
generic line without one; the trace segment for the entry contains exactly
one attempted request (no retry) and no success line. -/
theorem C4_delete_failures_caught (key ref : String) (del : Nat → DelOutcome)
    (c : Json) (rest : List Json) (k : Nat) (id : Json)
    (href : Json.index c "ref" = .ok (.str ref))
    (hid : Json.index c "id" = .ok id) :
    (∀ code, del k = .httpError code →
      processCaches key ref del (c :: rest) k =
        Result.prepend
          [.output ("Deleting ID " ++ id.pyStr ++ "..."),
           .request (delete_cache_request key id),
           .output ("HTTPError with delete, error code " ++ toString code ++ ".")]
          (processCaches key ref del rest (k + 1))) ∧
    (del k = .urlError →
      processCaches key ref del (c :: rest) k =
        Result.prepend
          [.output ("Deleting ID " ++ id.pyStr ++ "..."),
           .request (delete_cache_request key id),
           .output "URLError with delete."]
          (processCaches key ref del rest (k + 1))) := by
  have hm : Json.eqStr (.str ref) ref = true := by simp [Json.eqStr]
  constructor
  · intro code hdel
    rw [processCaches_cons_match key ref del c rest k (.str ref) id href hm hid,
      hdel]
    simp [delTrace, pyFormat_deleting, pyFormat_httpError]
  · intro hdel
    rw [processCaches_cons_match key ref del c rest k (.str ref) id href hm hid,
      hdel]
    simp [delTrace, pyFormat_deleting]

/-- C4 witness: a single matching entry whose delete returns HTTP 404 is
logged with the code 404 and the loop moves on to the (empty) remainder. -/
theorem C4_delete_failures_caught_witness :
    processCaches "t" "refs/pull/1/merge" (fun _ => .httpError 404)
        [.obj [("ref", .str "refs/pull/1/merge"), ("id", .num 5)]] 0 =
      Result.prepend
        [.output ("Deleting ID " ++ (Json.num 5).pyStr ++ "..."),
         .request (delete_cache_request "t" (.num 5)),
         .output ("HTTPError with delete, error code " ++ toString 404 ++ ".")]
        (processCaches "t" "refs/pull/1/merge" (fun _ => .httpError 404) [] 1) :=
  (C4_delete_failures_caught "t" "refs/pull/1/merge" (fun _ => .httpError 404)
    (.obj [("ref", .str "refs/pull/1/merge"), ("id", .num 5)]) [] 0 (.num 5)
    rfl rfl).1 404 rfl

/-- C10: when the list request succeeds at the HTTP level but the body is
not well-formed for this tool — the body is not valid JSON, the
`actions_caches` field access raises, an entry's `ref` field is missing, or
a matching entry's `id` field is missing — the error is unhandled and fatal
exactly like a listing-stage failure, and no delete request is attempted
past the point of failure. -/
theorem C10_malformed_body_fatal (env : List (String × String))
    (argv : List String) (del : Nat → DelOutcome) (key pr : String)
    (hk : env.lookup "GITHUB_TOKEN" = some key)
    (ha : argv[1]? = some pr) :
    (main ⟨env, argv, .badJson, del⟩ =
      ⟨[.request (cache_list_request key)], some .jsonDecodeError⟩) ∧
    (∀ (body : Json) (f : Fatal),
      Json.index body "actions_caches" = .error f →
      main ⟨env, argv, .ok body, del⟩ =
        ⟨[.request (cache_list_request key)], some f⟩) ∧
    (∀ (body cachesVal : Json) (pre : List Json) (c : Json) (rest : List Json)
        (f : Fatal),
      Json.index body "actions_caches" = .ok cachesVal →
      Json.iter cachesVal = .ok (pre ++ c :: rest) →
      (∀ e ∈ pre, entryOk (derivedRef pr) e = true) →
      (Json.index c "ref" = .error f ∨
        (Json.index c "ref" = .ok (.str (derivedRef pr)) ∧
          Json.index c "id" = .error f)) →
      (main ⟨env, argv, .ok body, del⟩).fatal = some f ∧
      deleteRequests (main ⟨env, argv, .ok body, del⟩).events =
        (matchingIds (derivedRef pr) pre).map (delete_cache_request key)) := by
  refine ⟨by simp [main, hk, ha], fun body f hb => by simp [main, hk, ha, hb],
    fun body cachesVal pre c rest f hb hi hpre hc => ?_⟩
  obtain ⟨hf, hd⟩ :=
    processCaches_fail key (derivedRef pr) del pre c rest f hpre hc 0
  constructor
  · simp only [main, hk, ha, hb, hi, Result.prepend]
    exact hf
  · simp only [main, hk, ha, hb, hi, Result.prepend, List.singleton_append]
    rw [deleteRequests_cons_listEv]
    exact hd

/-- C10 witness: a run whose listed entry lacks the `ref` field dies with
the KeyError after attempting only the list request, having issued no
delete. -/
theorem C10_malformed_body_fatal_witness :
    (main ⟨[("GITHUB_TOKEN", "t")], ["clear_cache.py", "8"],
        .ok (.obj [("actions_caches", .arr [.obj [("id", .num 3)]])]),
        fun _ => .success⟩).fatal = some .keyError ∧
    deleteRequests (main ⟨[("GITHUB_TOKEN", "t")], ["clear_cache.py", "8"],
        .ok (.obj [("actions_caches", .arr [.obj [("id", .num 3)]])]),
        fun _ => .success⟩).events =
      (matchingIds (derivedRef "8") []).map (delete_cache_request "t") :=
  (C10_malformed_body_fatal [("GITHUB_TOKEN", "t")] ["clear_cache.py", "8"]
    (fun _ => .success) "t" "8" rfl rfl).2.2
    (.obj [("actions_caches", .arr [.obj [("id", .num 3)]])])
    (.arr [.obj [("id", .num 3)]]) [] (.obj [("id", .num 3)]) [] .keyError
    rfl rfl (by decide) (Or.inl rfl)

end ClearCache
